import Mathlib

/-!
Shallow embedding of the smashtest execution engine (`src/runinstance.js`,
`src/unnamed/part_000` = Branch), for checking the natural-language spec.

Values flowing through the variable system are the scalars the engine
supports (string / number / boolean); JS `undefined` is modelled by
`Option`.  Variable maps are association lists keyed by strings; the
engine canonicalizes keys before every lookup.
-/

namespace Smashtest

/-- A scalar value: the engine's variables are strings, numbers or booleans. -/
inductive Value where
  | str (s : String)
  | num (n : Int)
  | bool (b : Bool)
deriving DecidableEq, Repr

/-- JS truthiness of a scalar value: `""`, `0` and `false` are falsy. -/
def truthyV : Value → Bool
  | .str s => !s.isEmpty
  | .num n => n != 0
  | .bool b => b

/-- JS truthiness of a possibly-undefined value (`undefined` is falsy). -/
def truthy : Option Value → Bool
  | none => false
  | some v => truthyV v

/-- A variable namespace: an association list from keys to values.
Lookup returns the first binding for a key. -/
abbrev VarMap := List (String × Value)

/-- Object property read: first binding wins, `none` for a missing key. -/
def lookupVar (m : VarMap) (key : String) : Option Value :=
  (m.find? (fun p => p.1 == key)).map (fun p => p.2)

/-- Modelled from the spec: `utils.canonicalize` (utils.js is not under src/).
Per §4.A keys are canonicalized by trimming, collapsing interior whitespace
to single spaces, and case-folding: split on whitespace, drop empty words,
rejoin with single spaces, lower-case. -/
def canonicalize (s : String) : String :=
  String.mk
    ((List.intercalate [' ']
      ((s.data.splitOnP (fun c => c.isWhitespace)).filter
        (fun w => !w.isEmpty))).map Char.toLower)

/-- One frame of an error's stack trace.  A frame either matches the
`at CodeBlock...<anonymous>:N` pattern of `fillErrorFromStep` (carrying its
trailing line number N) or it does not. -/
inductive Frame where
  | codeBlock (n : Nat)
  | other
deriving DecidableEq, Repr

/-- An Error object as the engine sees it. -/
structure Err where
  message : String := ""
  stack : List Frame := []
  filename : String := ""
  lineNumber : Nat := 0
  errContinue : Bool := false
  msg : Option String := none
  stackTrace : Option (List Frame) := none
deriving DecidableEq, Repr

/-- One member of `step.varsBeingSet`: `{name}=value` or `{{name}}=value`. -/
structure VarBeingSet where
  name : String
  value : String
  isLocal : Bool
deriving DecidableEq, Repr

/-- A Step, with the fields `runinstance.js` reads and writes.
`fdFilename`/`fdLineNumber` stand for
`originalStepInTree.functionDeclarationInTree.{filename,lineNumber}`. -/
structure Step where
  filename : String := ""
  lineNumber : Nat := 0
  branchIndents : Nat := 0
  isFunctionCall : Bool := false
  isHook : Bool := false
  isPackaged : Bool := false
  isExpectedFail : Bool := false
  codeBlock : Option String := none
  varsBeingSet : List VarBeingSet := []
  fdFilename : String := ""
  fdLineNumber : Nat := 0
  isPassed : Bool := false
  isFailed : Bool := false
  isSkipped : Bool := false
  asExpected : Bool := false
  stepError : Option Err := none
  isRunning : Bool := false
  log : Option (List String) := none
deriving DecidableEq, Repr

/-- `Step.hasCodeBlock()`: true iff the step carries a code block. -/
def Step.hasCodeBlock (s : Step) : Bool :=
  s.codeBlock.isSome

/-- The variable environment of a RunInstance.  `locl` is `this.local`
(`none` models the JS `undefined` produced by popping an empty stack). -/
structure Env where
  persistent : VarMap := []
  glob : VarMap := []
  locl : Option VarMap := some []
  localStack : List (Option VarMap) := []
  localsPassedIntoFunc : VarMap := []
deriving DecidableEq, Repr

/-- `getPersistent(varname)`. -/
def getPersistent (e : Env) (varname : String) : Option Value :=
  lookupVar e.persistent (canonicalize varname)

/-- `getGlobal(varname)`. -/
def getGlobal (e : Env) (varname : String) : Option Value :=
  lookupVar e.glob (canonicalize varname)

/-- `getLocal(varname)`: `localsPassedIntoFunc` is consulted first, then
the current local frame. -/
def getLocal (e : Env) (varname : String) : Option Value :=
  let c := canonicalize varname
  match lookupVar e.localsPassedIntoFunc c with
  | some v => some v
  | none =>
    match e.locl with
    | some m => lookupVar m c
    | none => none

/-- `pushLocalStack()`: save the current local frame, replace it with a
fresh frame holding the bindings of `localsPassedIntoFunc`, clear the
latter. -/
def pushLocalStack (e : Env) : Env :=
  { e with
    localStack := e.locl :: e.localStack
    locl := some e.localsPassedIntoFunc
    localsPassedIntoFunc := [] }

/-- `popLocalStack()`: `this.local = this.localStack.pop()`; popping an
empty JS array yields `undefined`. -/
def popLocalStack (e : Env) : Env :=
  match e.localStack with
  | top :: rest => { e with locl := top, localStack := rest }
  | [] => { e with locl := none, localStack := [] }

/-- The local-scope transition `runStep` performs between the previous
step and the current one (runinstance.js lines 175-198), including the
unconditional clearing of `localsPassedIntoFunc`. -/
def stepScopeTransition (prevStep : Option Step) (step : Step) (e : Env) : Env :=
  let e1 :=
    match prevStep with
    | none => e
    | some p =>
      let prevStepWasACodeBlockFunc := p.isFunctionCall && p.hasCodeBlock
      if step.branchIndents > p.branchIndents then
        if !prevStepWasACodeBlockFunc then pushLocalStack e else e
      else if step.branchIndents < p.branchIndents then
        popLocalStack^[p.branchIndents - step.branchIndents] e
      else
        if prevStepWasACodeBlockFunc then popLocalStack e else e
  { e1 with localsPassedIntoFunc := [] }

/-- The per-branch variable reset performed at the top of `run()`
(runinstance.js lines 60-63): `global` is rebuilt from
`runner.globalInit`, `local` and `localStack` are cleared. -/
def resetForBranch (globalInit : VarMap) (e : Env) : Env :=
  { e with glob := globalInit, locl := some [], localStack := [] }

/-- Whether step `s` has a `varsBeingSet` entry matching `varname` (case
insensitively) in the requested namespace — the inner loop of
`findVarValue`'s forward scan. -/
def matchesVar (varname : String) (isLocal : Bool) (s : Step) : Bool :=
  s.varsBeingSet.any
    (fun v => canonicalize v.name == canonicalize varname && v.isLocal == isLocal)

/-- The forward scan of `findVarValue` (runinstance.js lines 807-839) over
the steps of the branch from the current step on: returns the first step
that sets the variable, stopping early (for locals) at the first step
whose `branchIndents` drops below the current step's. -/
def scanForVar (varname : String) (isLocal : Bool) (stepIndents : Nat) :
    List Step → Option Step
  | [] => none
  | s :: rest =>
    if isLocal && s.branchIndents < stepIndents then none
    else if matchesVar varname isLocal s then some s
    else scanForVar varname isLocal stepIndents rest

/-- Outcome of `findVarValue`: the already-assigned value was returned
immediately, or the value is produced from a later setter step found by
the forward scan, or the `VarNotSet` error is raised. -/
inductive FindResult where
  | immediate (v : Value)
  | fromStep (s : Step)
  | varNotSet
deriving DecidableEq, Repr

/-- The forward-scan tail of `findVarValue`: a found setter step supplies
the value (by code block or literal), otherwise `VarNotSet` is raised. -/
def findVarScanPart (varname : String) (isLocal : Bool) (stepIndents : Nat)
    (stepsFrom : List Step) : FindResult :=
  match scanForVar varname isLocal stepIndents stepsFrom with
  | some s => .fromStep s
  | none => .varNotSet

/-- `findVarValue(varname, isLocal, step, branch)` (runinstance.js lines
777-843), as a function of the environment and of the branch's step list
from `step` on (`branch.steps.indexOf(step)` locates that suffix; when no
branch is given the suffix is `[step]`).  The already-assigned value is
returned immediately only when it is truthy (`if(value)`). -/
def findVarValue (varname : String) (isLocal : Bool) (stepIndents : Nat)
    (stepsFrom : List Step) (e : Env) : FindResult :=
  let value := if isLocal then getLocal e varname else getGlobal e varname
  match value with
  | some v =>
    if truthyV v then .immediate v
    else findVarScanPart varname isLocal stepIndents stepsFrom
  | none => findVarScanPart varname isLocal stepIndents stepsFrom

/-- The line number carried by the first `at CodeBlock...<anonymous>:N`
frame of a stack — `match(...g)` returns matches in order and
`fillErrorFromStep` reads `matches[0]`. -/
def firstCodeBlockLine (fs : List Frame) : Option Nat :=
  (fs.filterMap (fun f => match f with | .codeBlock n => some n | .other => none)).head?

/-- The line number carried by the last `at CodeBlock...<anonymous>:N`
frame of a stack (what the spec's "the last such N" denotes). -/
def lastCodeBlockLine (fs : List Frame) : Option Nat :=
  (fs.filterMap (fun f => match f with | .codeBlock n => some n | .other => none)).getLast?

/-- `fillErrorFromStep(error, step, inCodeBlock)` (runinstance.js lines
953-974): attach the step's filename/lineNumber; redirect a function
call's code block to its declaration; then, for a code block of a
non-packaged step, overwrite `lineNumber` from the first matching
`at CodeBlock...<anonymous>:N` stack frame. -/
def fillErrorFromStep (error : Err) (step : Step) (inCodeBlock : Bool) : Err :=
  let e1 := { error with filename := step.filename, lineNumber := step.lineNumber }
  let e2 :=
    if step.isFunctionCall && inCodeBlock && !step.isHook && !step.isPackaged then
      { e1 with filename := step.fdFilename, lineNumber := step.fdLineNumber }
    else e1
  if inCodeBlock && !step.isPackaged then
    match firstCodeBlockLine error.stack with
    | some n => { e2 with lineNumber := n }
    | none => e2
  else e2

/-- The synthesized error of runinstance.js lines 294-296: the step
passed but was expected to fail. -/
def stepPassedButExpectedToFail (step : Step) : Err :=
  { message := "This step passed, but it was expected to fail (#)"
    filename := step.filename
    lineNumber := step.lineNumber }

/-- The arguments `runStep` passes to `tree.markStep`. -/
structure MarkArgs where
  isPassed : Bool
  asExpected : Bool
  error : Option Err
  finishBranchNow : Bool
deriving DecidableEq, Repr

/-- The result-resolution block of `runStep` (runinstance.js lines
291-308): from the error produced by executing the step (already filled
by `fillErrorFromStep`, `none` if none was thrown), compute the
`markStep` arguments. -/
def resolveStepResult (execError : Option Err) (step : Step) (pauseOnFail : Bool) :
    MarkArgs :=
  let isPassed := execError.isNone
  let error :=
    if step.isExpectedFail && isPassed then some (stepPassedButExpectedToFail step)
    else execError
  let finishBranchNow :=
    if !isPassed then
      if (error.map Err.errContinue).getD false || pauseOnFail then false
      else true
    else false
  { isPassed := isPassed
    asExpected := step.isExpectedFail == !isPassed
    error := error
    finishBranchNow := finishBranchNow }

/-- A Branch (src/unnamed/part_000), with the fields the claims touch. -/
structure Branch where
  steps : List Step := []
  isPassed : Bool := false
  isFailed : Bool := false
  isSkipped : Bool := false
  isRunning : Bool := false
  passedLastTime : Bool := false
  error : Option Err := none
  log : Option (List String) := none
deriving DecidableEq, Repr

/-- `Branch.markBranch(isPassed, error)` (part_000 lines 278-297): set the
pass/fail flag, clear the others, and record the error (augmented with
`msg` and `stackTrace`) when one is given. -/
def markBranch (b : Branch) (isPassed : Bool) (error : Option Err) : Branch :=
  let b1 :=
    if isPassed then
      { b with isPassed := true, isFailed := false, isRunning := false, isSkipped := false }
    else
      { b with isFailed := true, isPassed := false, isRunning := false, isSkipped := false }
  match error with
  | some e =>
    { b1 with error := some { e with msg := some e.message, stackTrace := some e.stack } }
  | none => b1

/-- `Branch.appendToLog(item)` (part_000 lines 325-336): initialize the
log if absent and push the item. -/
def Branch.appendToLog (b : Branch) (item : String) : Branch :=
  { b with log := some ((b.log.getD []) ++ [item]) }

/-- `Branch.stop()` (part_000 lines 269-273): mark all steps not running. -/
def Branch.stopBranch (b : Branch) : Branch :=
  { b with steps := b.steps.map (fun s => { s with isRunning := false }) }

/-- Modelled from the spec: `Tree.markStep` (tree.js is not under src/).
Per §4.E and §7 it marks the step passed or failed according to
`isPassed`, records `asExpected`, and attaches the given error to the
step when one is passed. -/
def markStepModel (st : Step) (isPassed asExpected : Bool) (error : Option Err) : Step :=
  let st1 :=
    if isPassed then { st with isPassed := true, isFailed := false, isSkipped := false }
    else { st with isFailed := true, isPassed := false, isSkipped := false }
  let st2 := { st1 with asExpected := asExpected }
  match error with
  | some e => { st2 with stepError := some e }
  | none => st2

/-- The catch block of `runHookStep` (runinstance.js lines 377-395): fill
the error from the hook step, then route it — to the step to get the
error (marking the branch failed without an error), or else to the
branch; an error already recorded on the target is not replaced
(`undefined` is passed instead). -/
def runHookStepFail (hookStep : Step) (stepToGetError : Option Step)
    (branchToGetError : Option Branch) (e : Err) : Option Step × Option Branch :=
  let e := fillErrorFromStep e hookStep true
  match stepToGetError with
  | some st =>
    let st2 := markStepModel st false false (if st.stepError.isSome then none else some e)
    let b2 := branchToGetError.map (fun b => markBranch b false none)
    (some st2, b2)
  | none =>
    match branchToGetError with
    | some b =>
      let e2 : Option Err := if b.error.isSome then none else some e
      (none, some (markBranch b false e2))
    | none => (none, none)

/-- A target of `appendToLog`: a Step or a Branch. -/
inductive LogTarget where
  | step (s : Step)
  | branch (b : Branch)
deriving DecidableEq, Repr

/-- Appending to a log target.  The branch case is part_000's
`appendToLog`; the step case (step.js is not under src/) behaves the
same way on the step's log. -/
def LogTarget.append : LogTarget → String → LogTarget
  | .step s, item => .step { s with log := some ((s.log.getD []) ++ [item]) }
  | .branch b, item => .branch (b.appendToLog item)

/-- The RunInstance state that `stop()` and `appendToLog` touch. -/
structure RunInst where
  isStopped : Bool := false
  currBranch : Option Branch := none
deriving DecidableEq, Repr

/-- `stop()` (runinstance.js lines 403-408): set `isStopped` and
propagate to the current branch. -/
def RunInst.stop (r : RunInst) : RunInst :=
  { r with isStopped := true, currBranch := r.currBranch.map Branch.stopBranch }

/-- `RunInstance.appendToLog(text, logHere)` (runinstance.js lines
848-852): log only when a target is present and the instance is not
stopped; otherwise the target is left untouched. -/
def riAppendToLog (isStopped : Bool) (text : String) (logHere : Option LogTarget) :
    Option LogTarget :=
  match logHere with
  | some t => if !isStopped then some (t.append text) else some t
  | none => none

/-! Concrete inputs used by counterexamples and witnesses. -/

/-- An error whose stack holds two `CodeBlock` frames, lines 5 and 9. -/
def errC1 : Err := { stack := [.codeBlock 5, .other, .codeBlock 9] }

/-- A plain non-packaged step. -/
def stepC1 : Step := { filename := "f.smash", lineNumber := 3 }

/-- An error with a single `CodeBlock` frame at line 42. -/
def errC1w : Err := { stack := [.other, .codeBlock 42] }

/-- Another plain non-packaged step. -/
def stepC1w : Step := { filename := "g.smash", lineNumber := 11 }

/-- An environment whose local frame binds `x` to the empty string. -/
def envC2 : Env := { locl := some [("x", .str "")] }

/-- A step with no `varsBeingSet`, at indent 0. -/
def stepC2 : Step := {}

/-- An environment whose local frame binds `y` to a non-empty string. -/
def envC2w : Env := { locl := some [("y", .str "hi")] }

/-- A step expected to fail. -/
def stepC4 : Step := { filename := "a.smash", lineNumber := 7, isExpectedFail := true }

/-- Claim C1 (counterexample): `fillErrorFromStep` reads `matches[0]`, the
first `at CodeBlock...<anonymous>:N` frame of the stack, not the last one:
on a stack whose matching frames carry 5 and then 9, `lineNumber` becomes
5, not the last N (9). -/
theorem fillErrorFromStep_first_frame_cex :
    lastCodeBlockLine errC1.stack = some 9 ∧
    (fillErrorFromStep errC1 stepC1 true).lineNumber = 5 ∧
    (fillErrorFromStep errC1 stepC1 true).lineNumber ≠ 9 := by
  refine ⟨rfl, rfl, by decide⟩

/-- Claim C1 (amended): for every error thrown from inside a code block of
a non-packaged step, `fillErrorFromStep` overwrites `error.lineNumber` with
N taken from the FIRST stack frame matching `at CodeBlock...<anonymous>:N`
when at least one such frame exists in the error's stack. -/
theorem fillErrorFromStep_codeBlock_lineNumber (e : Err) (s : Step) (n : Nat)
    (hpk : s.isPackaged = false) (hfirst : firstCodeBlockLine e.stack = some n) :
    (fillErrorFromStep e s true).lineNumber = n := by
  simp [fillErrorFromStep, hpk, hfirst]

/-- Witness for the amended C1 theorem at a concrete error and step. -/
theorem fillErrorFromStep_codeBlock_lineNumber_witness :
    stepC1w.isPackaged = false ∧
    firstCodeBlockLine errC1w.stack = some 42 ∧
    (fillErrorFromStep errC1w stepC1w true).lineNumber = 42 :=
  ⟨rfl, rfl, fillErrorFromStep_codeBlock_lineNumber errC1w stepC1w 42 rfl rfl⟩

/-- Claim C2 (counterexample): a local variable assigned the empty string
is NOT returned immediately by `findVarValue` — `if(value)` tests JS
truthiness, so the forward scan proceeds and, with no later setter, the
call raises `VarNotSet` instead of returning `""`. -/
theorem findVarValue_falsy_cex :
    getLocal envC2 "x" = some (.str "") ∧
    findVarValue "x" true 0 [stepC2] envC2 = .varNotSet ∧
    findVarValue "x" true 0 [stepC2] envC2 ≠ .immediate (.str "") := by
  refine ⟨rfl, rfl, by decide⟩

/-- Claim C2 (amended): for every variable already assigned in the
relevant namespace, `findVarValue` returns the assigned value immediately
(without scanning forward and without `VarNotSet`) exactly when the value
is truthy (non-empty string, non-zero number, or `true`); a falsy assigned
value (empty string, 0, `false`) is skipped and the forward scan proceeds
as if the variable were unassigned. -/
theorem findVarValue_assigned (varname : String) (isLocal : Bool)
    (stepIndents : Nat) (stepsFrom : List Step) (e : Env) (v : Value)
    (hv : (if isLocal then getLocal e varname else getGlobal e varname) = some v) :
    (truthyV v = true →
      findVarValue varname isLocal stepIndents stepsFrom e = .immediate v)
    ∧ (truthyV v = false →
      findVarValue varname isLocal stepIndents stepsFrom e
        = findVarScanPart varname isLocal stepIndents stepsFrom) := by
  constructor <;> intro h <;> simp [findVarValue, hv, h]

/-- Witness for the amended C2 theorem at a concrete environment. -/
theorem findVarValue_assigned_witness :
    getLocal envC2w "y" = some (.str "hi") ∧
    truthyV (.str "hi") = true ∧
    findVarValue "y" true 0 [] envC2w = .immediate (.str "hi") :=
  ⟨rfl, rfl, (findVarValue_assigned "y" true 0 [] envC2w (.str "hi") rfl).1 rfl⟩

/-- Claim C3: `finishBranchNow` is true exactly when the step's execution
produced an error and neither the error carries `continue = true` nor the
runner has `pauseOnFail` set; in particular it is false for every step
that ends passed. -/
theorem runStep_finishBranchNow (execError : Option Err) (step : Step)
    (pauseOnFail : Bool) :
    (resolveStepResult execError step pauseOnFail).finishBranchNow
      = (execError.isSome
          && !(((execError.map Err.errContinue).getD false) || pauseOnFail)) := by
  cases execError with
  | none => rfl
  | some e =>
    cases hc : e.errContinue <;> cases pauseOnFail <;>
      simp [resolveStepResult, hc]

/-- Claim C4 (counterexample): for a step with `isExpectedFail = true`
whose execution produced no error, `runStep` synthesizes the
expected-to-fail error but still calls `tree.markStep` with
`isPassed = true` — the step is NOT marked failed. -/
theorem runStep_expectedFail_pass_cex :
    (resolveStepResult none stepC4 false).error
        = some (stepPassedButExpectedToFail stepC4) ∧
    (resolveStepResult none stepC4 false).isPassed = true ∧
    (resolveStepResult none stepC4 false).isPassed ≠ false := by
  refine ⟨rfl, rfl, by decide⟩

/-- Claim C4 (amended): for every executed step, the `asExpected` value
passed to `tree.markStep` equals `(isPassed == !isExpectedFail)`; and for
every step with `isExpectedFail = true` whose execution produced no
error, `runStep` synthesizes a new error whose filename and lineNumber
are the step's own and passes it to `tree.markStep` together with
`isPassed = true` and `asExpected = false` — the step is recorded as
passed-but-not-as-expected, carrying the error, not marked failed. -/
theorem runStep_markStep_args (execError : Option Err) (step : Step)
    (pauseOnFail : Bool) :
    ((resolveStepResult execError step pauseOnFail).asExpected
      = ((resolveStepResult execError step pauseOnFail).isPassed
          == !step.isExpectedFail))
    ∧ ((resolveStepResult none { step with isExpectedFail := true }
          pauseOnFail).error.map Err.filename = some step.filename)
    ∧ ((resolveStepResult none { step with isExpectedFail := true }
          pauseOnFail).error.map Err.lineNumber = some step.lineNumber)
    ∧ ((resolveStepResult none { step with isExpectedFail := true }
          pauseOnFail).isPassed = true)
    ∧ ((resolveStepResult none { step with isExpectedFail := true }
          pauseOnFail).asExpected = false) := by
  refine ⟨?_, rfl, rfl, rfl, rfl⟩
  cases execError <;> cases h : step.isExpectedFail <;>
    simp [resolveStepResult, h]

/-- Claim C10: once `stop()` has set `isStopped`, every call to
`appendToLog` leaves the log target untouched, regardless of the text or
target passed; and `appendToLog` is a no-op whenever the target is
absent. -/
theorem appendToLog_noop_after_stop (r : RunInst) (text : String)
    (logHere : Option LogTarget) (anyStopped : Bool) :
    (riAppendToLog (r.stop).isStopped text logHere = logHere)
    ∧ (riAppendToLog anyStopped text none = none) := by
  constructor
  · cases logHere <;> rfl
  · rfl

/-- Popping once shortens the local stack by one (an empty stack stays
empty). -/
theorem popLocalStack_localStack_length (e : Env) :
    (popLocalStack e).localStack.length = e.localStack.length - 1 := by
  cases h : e.localStack <;> simp [popLocalStack, h]

/-- Popping `k` times shortens the local stack by `k` (truncated at 0). -/
theorem popLocalStack_iterate_length (k : Nat) (e : Env) :
    (popLocalStack^[k] e).localStack.length = e.localStack.length - k := by
  induction k generalizing e with
  | zero => simp
  | succ k ih =>
    rw [Function.iterate_succ_apply, ih, popLocalStack_localStack_length,
      Nat.sub_sub, Nat.add_comm]

/-- Claim C5: between adjacent steps, the scope transition of `runStep`
changes the local-stack depth as follows — on an indent increase, one push
unless the previous step was a function call with a code block (then no
change); on an indent decrease, exactly `(prev − curr)` pops; on equal
indents, one pop exactly when the previous step was a function call with
a code block; and `localsPassedIntoFunc` is cleared afterwards. -/
theorem runStep_scopeTransition (p c : Step) (e : Env) :
    (c.branchIndents > p.branchIndents →
      (stepScopeTransition (some p) c e).localStack.length
        = (if p.isFunctionCall && p.hasCodeBlock then e.localStack.length
           else e.localStack.length + 1))
    ∧ (c.branchIndents < p.branchIndents →
      (stepScopeTransition (some p) c e).localStack.length
        = e.localStack.length - (p.branchIndents - c.branchIndents))
    ∧ (c.branchIndents = p.branchIndents →
      (stepScopeTransition (some p) c e).localStack.length
        = (if p.isFunctionCall && p.hasCodeBlock then e.localStack.length - 1
           else e.localStack.length))
    ∧ (stepScopeTransition (some p) c e).localsPassedIntoFunc = [] := by
  refine ⟨?_, ?_, ?_, rfl⟩
  · intro h
    cases hcb : p.isFunctionCall && p.hasCodeBlock <;>
      simp [stepScopeTransition, h, hcb, pushLocalStack]
  · intro h
    have h1 : ¬ (c.branchIndents > p.branchIndents) := by omega
    simp [stepScopeTransition, h, h1, popLocalStack_iterate_length]
  · intro h
    have h1 : ¬ (c.branchIndents > p.branchIndents) := by omega
    have h2 : ¬ (c.branchIndents < p.branchIndents) := by omega
    cases hcb : p.isFunctionCall && p.hasCodeBlock <;>
      simp [stepScopeTransition, h1, h2, hcb, popLocalStack_localStack_length]

/-- A previous step at indent 0 (not a code-block function call). -/
def pC5a : Step := { branchIndents := 0 }

/-- A current step at indent 1. -/
def cC5a : Step := { branchIndents := 1 }

/-- A previous step at indent 2. -/
def pC5b : Step := { branchIndents := 2 }

/-- A current step at indent 0. -/
def cC5b : Step := { branchIndents := 0 }

/-- A previous step at indent 1 that is a function call with a code
block. -/
def pC5c : Step := { branchIndents := 1, isFunctionCall := true, codeBlock := some "c" }

/-- A current step at indent 1. -/
def cC5c : Step := { branchIndents := 1 }

/-- An environment with a two-deep local stack and a staged local. -/
def envC5 : Env :=
  { localStack := [some [], some []], localsPassedIntoFunc := [("a", .bool true)] }

/-- Witness for C5 at concrete steps in each of the three indent cases. -/
theorem runStep_scopeTransition_witness :
    ((stepScopeTransition (some pC5a) cC5a envC5).localStack.length
      = (if pC5a.isFunctionCall && pC5a.hasCodeBlock then envC5.localStack.length
         else envC5.localStack.length + 1))
    ∧ ((stepScopeTransition (some pC5b) cC5b envC5).localStack.length
      = envC5.localStack.length - (pC5b.branchIndents - cC5b.branchIndents))
    ∧ ((stepScopeTransition (some pC5c) cC5c envC5).localStack.length
      = (if pC5c.isFunctionCall && pC5c.hasCodeBlock then envC5.localStack.length - 1
         else envC5.localStack.length))
    ∧ (stepScopeTransition (some pC5a) cC5a envC5).localsPassedIntoFunc = [] :=
  ⟨(runStep_scopeTransition pC5a cC5a envC5).1 (by decide),
   (runStep_scopeTransition pC5b cC5b envC5).2.1 (by decide),
   (runStep_scopeTransition pC5c cC5c envC5).2.2.1 (by decide),
   (runStep_scopeTransition pC5a cC5a envC5).2.2.2⟩

/-- The forward scan stops at the first local-scope boundary: its result
does not depend on the steps at or beyond a step whose `branchIndents`
drops below the current step's. -/
theorem scanForVar_stops_at_boundary (varname : String) (si : Nat)
    (pre : List Step) (b : Step) (hb : b.branchIndents < si)
    (rest1 rest2 : List Step) :
    scanForVar varname true si (pre ++ b :: rest1)
      = scanForVar varname true si (pre ++ b :: rest2) := by
  induction pre with
  | nil => simp [scanForVar, hb]
  | cons s pre ih =>
    by_cases h : s.branchIndents < si
    · simp [scanForVar, h]
    · by_cases hm : matchesVar varname true s
      · simp [scanForVar, h, hm]
      · simp [scanForVar, h, hm, ih]

/-- If no step before the boundary sets the variable, the bounded scan
finds nothing. -/
theorem scanForVar_none_of_boundary (varname : String) (si : Nat)
    (pre : List Step) (b : Step) (rest : List Step)
    (hb : b.branchIndents < si)
    (hpre : ∀ s ∈ pre, matchesVar varname true s = false) :
    scanForVar varname true si (pre ++ b :: rest) = none := by
  induction pre with
  | nil => simp [scanForVar, hb]
  | cons s pre ih =>
    have hs := hpre s (by simp)
    have hrest : ∀ x ∈ pre, matchesVar varname true x = false :=
      fun x hx => hpre x (by simp [hx])
    by_cases h : s.branchIndents < si
    · simp [scanForVar, h]
    · simp [scanForVar, h, hs, ih hrest]

/-- Claim C6: a forward scan for a local variable (when the assigned
value was not truthy, so the scan runs) terminates at the first step
whose `branchIndents` is strictly below the current step's: steps at or
beyond that point are never consulted (the result is the same for any
continuation of the branch), and if no setter was found before that
point the call fails with `VarNotSet`. -/
theorem findVarValue_local_scope (varname : String) (e : Env) (si : Nat)
    (pre : List Step) (b : Step) (rest1 rest2 : List Step)
    (hb : b.branchIndents < si)
    (ht : truthy (getLocal e varname) = false) :
    (scanForVar varname true si (pre ++ b :: rest1)
      = scanForVar varname true si (pre ++ b :: rest2))
    ∧ ((∀ s ∈ pre, matchesVar varname true s = false) →
      findVarValue varname true si (pre ++ b :: rest1) e = .varNotSet) := by
  refine ⟨scanForVar_stops_at_boundary varname si pre b hb rest1 rest2, ?_⟩
  intro hpre
  have hscan := scanForVar_none_of_boundary varname si pre b rest1 hb hpre
  cases hv : getLocal e varname with
  | none => simp [findVarValue, hv, findVarScanPart, hscan]
  | some v =>
    have hvv : truthyV v = false := by simpa [truthy, hv] using ht
    simp [findVarValue, hv, hvv, findVarScanPart, hscan]

/-- The current step of the C6 witness, at indent 2, setting nothing. -/
def stepC6s : Step := { branchIndents := 2 }

/-- The boundary step of the C6 witness, at indent 1. -/
def stepC6b : Step := { branchIndents := 1 }

/-- A local setter of `v` beyond the boundary, never consulted. -/
def stepC6set : Step :=
  { branchIndents := 2, varsBeingSet := [{ name := "v", value := "x", isLocal := true }] }

/-- An empty environment for the C6 witness. -/
def envC6 : Env := {}

/-- Witness for C6: the scan over the concrete branch ignores the setter
beyond the boundary and raises `VarNotSet`. -/
theorem findVarValue_local_scope_witness :
    (scanForVar "v" true 2 ([stepC6s] ++ stepC6b :: [stepC6set])
      = scanForVar "v" true 2 ([stepC6s] ++ stepC6b :: []))
    ∧ findVarValue "v" true 2 ([stepC6s] ++ stepC6b :: [stepC6set]) envC6
        = .varNotSet :=
  ⟨(findVarValue_local_scope "v" envC6 2 [stepC6s] stepC6b [stepC6set] []
      (by decide) rfl).1,
   (findVarValue_local_scope "v" envC6 2 [stepC6s] stepC6b [stepC6set] []
      (by decide) rfl).2 (by decide)⟩

/-- Claim C7: `pushLocalStack` saves the current local frame onto the
stack, replaces `local` with a fresh frame whose bindings are exactly
those of `localsPassedIntoFunc`, and leaves `localsPassedIntoFunc` empty
(other namespaces untouched); `popLocalStack` replaces `local` with the
most recently saved frame and removes it from the stack. -/
theorem pushPopLocalStack_spec (e e2 : Env) (f : Option VarMap)
    (rest : List (Option VarMap)) :
    ((pushLocalStack e).localStack = e.locl :: e.localStack
      ∧ (pushLocalStack e).locl = some e.localsPassedIntoFunc
      ∧ (pushLocalStack e).localsPassedIntoFunc = []
      ∧ (pushLocalStack e).glob = e.glob
      ∧ (pushLocalStack e).persistent = e.persistent)
    ∧ (e2.localStack = f :: rest →
      (popLocalStack e2).locl = f
        ∧ (popLocalStack e2).localStack = rest
        ∧ (popLocalStack e2).glob = e2.glob
        ∧ (popLocalStack e2).persistent = e2.persistent
        ∧ (popLocalStack e2).localsPassedIntoFunc = e2.localsPassedIntoFunc) := by
  refine ⟨⟨rfl, rfl, rfl, rfl, rfl⟩, ?_⟩
  intro h
  simp [popLocalStack, h]

/-- An environment with a saved frame on the stack, for the C7 witness. -/
def envC7 : Env :=
  { locl := some [("cur", .num 2)]
    localStack := [some [("saved", .num 1)], some []]
    localsPassedIntoFunc := [("arg", .str "in")] }

/-- Witness for C7 at a concrete environment. -/
theorem pushPopLocalStack_spec_witness :
    (pushLocalStack envC7).localStack = envC7.locl :: envC7.localStack
    ∧ (pushLocalStack envC7).locl = some envC7.localsPassedIntoFunc
    ∧ (popLocalStack envC7).locl = some [("saved", .num 1)]
    ∧ (popLocalStack envC7).localStack = [some []] := by
  have h := pushPopLocalStack_spec envC7 envC7 (some [("saved", .num 1)]) [some []]
  exact ⟨h.1.1, h.1.2.1, (h.2 rfl).1, (h.2 rfl).2.1⟩

/-- Claim C8: at the start of every branch run, `global` is reset to
exactly `runner.globalInit`, `local` and `localStack` are cleared, and
`persistent` is untouched — so persistent lookups give what branch N left
there, global lookups read only `globalInit`, and local lookups find
nothing. -/
theorem run_branchReset (gi : VarMap) (e : Env) (v : String) :
    ((resetForBranch gi e).persistent = e.persistent)
    ∧ ((resetForBranch gi e).glob = gi)
    ∧ ((resetForBranch gi e).locl = some [])
    ∧ ((resetForBranch gi e).localStack = [])
    ∧ (getPersistent (resetForBranch gi e) v = getPersistent e v)
    ∧ (getGlobal (resetForBranch gi e) v = lookupVar gi (canonicalize v))
    ∧ (e.localsPassedIntoFunc = [] → getLocal (resetForBranch gi e) v = none) := by
  refine ⟨rfl, rfl, rfl, rfl, rfl, rfl, ?_⟩
  intro h
  simp [getLocal, resetForBranch, lookupVar, h]

/-- The end-of-branch-N environment of the C8 witness: stale global and
local values, a persistent value to keep. -/
def envC8 : Env :=
  { persistent := [("p", .str "keep")]
    glob := [("g", .str "stale")]
    locl := some [("l", .str "stale")]
    localStack := [some []] }

/-- The runner's global seed for the C8 witness. -/
def giC8 : VarMap := [("init", .num 1)]

/-- Witness for C8 at a concrete environment: the persistent value
survives into branch N+1, the stale global and local values do not. -/
theorem run_branchReset_witness :
    envC8.localsPassedIntoFunc = []
    ∧ getPersistent (resetForBranch giC8 envC8) "p" = getPersistent envC8 "p"
    ∧ getGlobal (resetForBranch giC8 envC8) "g" = lookupVar giC8 (canonicalize "g")
    ∧ getLocal (resetForBranch giC8 envC8) "l" = none :=
  ⟨rfl, (run_branchReset giC8 envC8 "p").2.2.2.2.1,
   (run_branchReset giC8 envC8 "g").2.2.2.2.2.1,
   (run_branchReset giC8 envC8 "l").2.2.2.2.2.2 rfl⟩

/-- Claim C9: a hook failure routed by `runHookStep` never overwrites an
already-recorded error — a branch that already has an error is still
marked failed but keeps its error, and a step that already has an error
keeps it too (the branch being marked failed alongside). -/
theorem runHookStep_firstSetterWins (hs st : Step) (b : Branch) (e e0 e1 : Err) :
    (b.error = some e0 →
      ∃ b2, (runHookStepFail hs none (some b) e).2 = some b2
        ∧ b2.isFailed = true ∧ b2.error = some e0)
    ∧ (st.stepError = some e1 →
      ∃ st2, (runHookStepFail hs (some st) (some b) e).1 = some st2
        ∧ st2.isFailed = true ∧ st2.stepError = some e1)
    ∧ ((runHookStepFail hs (some st) (some b) e).2.map Branch.isFailed
        = some true) := by
  refine ⟨?_, ?_, rfl⟩
  · intro h
    refine ⟨markBranch b false none, ?_, ?_, ?_⟩
    · simp [runHookStepFail, h]
    · simp [markBranch]
    · simp [markBranch, h]
  · intro h
    refine ⟨markStepModel st false false none, ?_, ?_, ?_⟩
    · simp [runHookStepFail, h]
    · simp [markStepModel]
    · simp [markStepModel, h]

/-- The hook step of the C9 witness. -/
def hsC9 : Step := { filename := "hook.smash", lineNumber := 1 }

/-- A step that already carries an error. -/
def stC9 : Step := { stepError := some { message := "first" } }

/-- A branch that already carries an error. -/
def bC9 : Branch := { error := some { message := "orig" } }

/-- A later hook failure. -/
def eC9 : Err := { message := "hookfail" }

/-- Witness for C9 at concrete hook failures: the earlier errors stay. -/
theorem runHookStep_firstSetterWins_witness :
    (∃ b2, (runHookStepFail hsC9 none (some bC9) eC9).2 = some b2
      ∧ b2.isFailed = true ∧ b2.error = some { message := "orig" })
    ∧ (∃ st2, (runHookStepFail hsC9 (some stC9) (some bC9) eC9).1 = some st2
      ∧ st2.isFailed = true ∧ st2.stepError = some { message := "first" }) :=
  ⟨(runHookStep_firstSetterWins hsC9 stC9 bC9 eC9 { message := "orig" }
      { message := "first" }).1 rfl,
   (runHookStep_firstSetterWins hsC9 stC9 bC9 eC9 { message := "orig" }
      { message := "first" }).2.1 rfl⟩

end Smashtest
